import Mathlib

/-!
Shallow embedding of the community-association governance application
(Django + Django REST Framework), covering the data model and the
operations referenced by the verified properties below.

Two parallel implementation trees exist in the repository:
  * `apps/…`          — embedded here in namespace `Apps`
  * `django_server/…` — embedded here in namespace `DS`

Django model instances become Lean structures; field mutation followed by
`save()` becomes functional record update; `timezone.now()` calls become
explicit time parameters; querysets become lists; view error responses
(`PermissionDenied`, 400/403/404 responses) become `Except`/sum results.
-/

set_option maxHeartbeats 1000000
set_option linter.unusedVariables false

/-- `apps/accounts/models.py` `UserRole` choices. -/
inductive UserRole where
  | ADMIN
  | PRESIDENT
  | BOARD_MEMBER
  | COMMITTEE_MEMBER
  | VOLUNTEER
  | PUBLIC
deriving DecidableEq, Repr

/-- `apps/documents/models.py` `DocumentStatus` choices (identical in
`django_server/documents/models.py`). -/
inductive DocumentStatus where
  | PENDING
  | UNDER_REVIEW
  | APPROVED
  | LIVE
  | ARCHIVED
deriving DecidableEq, Repr

/-- `apps/approvals/models.py` `ApprovalStatus` choices (identical in
`django_server/approvals/models.py`). -/
inductive ApprovalStatus where
  | PENDING
  | APPROVED
  | REJECTED
  | CANCELLED
deriving DecidableEq, Repr

/-- A value stored in a `DateTimeField`-typed attribute at runtime.
`clock t` is a genuine timestamp (one sample of `timezone.now()`,
timestamps abstracted as naturals); `fieldObject` is the
`models.DateTimeField(auto_now=True)` *field object* that
`apps/approvals/models.py` assigns in `approve`/`reject`/`cancel` —
a Python object that is not a datetime at all. -/
inductive TimeVal where
  | clock (t : Nat)
  | fieldObject
deriving DecidableEq, Repr

/-- `apps/accounts/models.py` `User` (the fields the verified operations
read: identity and role). -/
structure User where
  id : Nat
  role : UserRole
deriving DecidableEq, Repr

namespace User

/-- `User.has_role`: `self.role == role`. -/
def has_role (u : User) (r : UserRole) : Bool :=
  u.role == r

/-- `User.can_approve_documents`: role in [ADMIN, PRESIDENT, BOARD_MEMBER]. -/
def can_approve_documents (u : User) : Bool :=
  u.role == .ADMIN || u.role == .PRESIDENT || u.role == .BOARD_MEMBER

/-- `User.can_view_all_documents`: role in [ADMIN, PRESIDENT, BOARD_MEMBER]. -/
def can_view_all_documents (u : User) : Bool :=
  u.role == .ADMIN || u.role == .PRESIDENT || u.role == .BOARD_MEMBER

/-- `User.can_create_documents`: role in
[ADMIN, PRESIDENT, BOARD_MEMBER, COMMITTEE_MEMBER, VOLUNTEER]. -/
def can_create_documents (u : User) : Bool :=
  u.role == .ADMIN || u.role == .PRESIDENT || u.role == .BOARD_MEMBER ||
  u.role == .COMMITTEE_MEMBER || u.role == .VOLUNTEER

end User

/-- `apps/categories` / `django_server` `DocumentCategory` (the field the
approval checks read). -/
structure Category where
  required_approval_role : UserRole
deriving DecidableEq, Repr

/-- `Document` rows (fields read or written by the verified operations).
Users appear by id, as the foreign keys do. -/
structure Document where
  id : Nat
  title : String
  slug : String
  category : Category
  status : DocumentStatus
  content_markdown : String
  is_public : Bool
  has_fillable_fields : Bool
  author : Nat
  approved_by : Option Nat
  approved_at : Option TimeVal
deriving DecidableEq, Repr

namespace Apps

/-- `apps/documents/models.py` `Document.can_be_edited_by`. -/
def Document.can_be_edited_by (d : Document) (u : User) : Bool :=
  if u.role == .ADMIN then true
  else if u.id == d.author then
    d.status == .PENDING || d.status == .UNDER_REVIEW
  else false

/-- `apps/documents/models.py` `Document.can_be_approved_by`. -/
def Document.can_be_approved_by (d : Document) (u : User) : Bool :=
  if u.role == .ADMIN then true
  else if u.role == .PRESIDENT then true
  else if u.role == .BOARD_MEMBER then
    d.category.required_approval_role == .BOARD_MEMBER ||
    d.category.required_approval_role == .COMMITTEE_MEMBER ||
    d.category.required_approval_role == .VOLUNTEER
  else false

/-- `apps/approvals/models.py` `ApprovalRequest`, with its `document`
foreign key dereferenced (the model methods mutate `self.document`
directly). -/
structure ApprovalRequest where
  document : Document
  requested_by : Nat
  status : ApprovalStatus
  notes : Option String
  reviewed_by : Option Nat
  reviewed_at : Option TimeVal
deriving DecidableEq, Repr

/-- `apps/approvals/models.py` `ApprovalRequest.can_be_reviewed_by`. -/
def ApprovalRequest.can_be_reviewed_by (r : ApprovalRequest) (u : User) : Bool :=
  if u.role == .ADMIN then true
  else if u.role == .PRESIDENT then true
  else if u.role == .BOARD_MEMBER then
    r.document.category.required_approval_role == .BOARD_MEMBER ||
    r.document.category.required_approval_role == .COMMITTEE_MEMBER ||
    r.document.category.required_approval_role == .VOLUNTEER
  else false

/-- `apps/approvals/models.py` `ApprovalRequest.approve`.  The source
assigns `models.DateTimeField(auto_now=True)` — a field object, not a
timestamp — to `self.reviewed_at`, then copies that value to
`self.document.approved_at`. -/
def ApprovalRequest.approve (r : ApprovalRequest) (reviewer : User)
    (notes : Option String) : ApprovalRequest :=
  let r1 := { r with
    status := ApprovalStatus.APPROVED
    reviewed_by := some reviewer.id
    reviewed_at := some TimeVal.fieldObject }
  let r2 := match notes with
    | some n => { r1 with notes := some n }
    | none => r1
  { r2 with document := { r2.document with
      status := DocumentStatus.APPROVED
      approved_by := some reviewer.id
      approved_at := r2.reviewed_at } }

/-- `apps/approvals/models.py` `ApprovalRequest.reject`. -/
def ApprovalRequest.reject (r : ApprovalRequest) (reviewer : User)
    (notes : Option String) : ApprovalRequest :=
  let r1 := { r with
    status := ApprovalStatus.REJECTED
    reviewed_by := some reviewer.id
    reviewed_at := some TimeVal.fieldObject }
  let r2 := match notes with
    | some n => { r1 with notes := some n }
    | none => r1
  { r2 with document := { r2.document with status := DocumentStatus.PENDING } }

/-- `apps/approvals/models.py` `ApprovalRequest.cancel`. -/
def ApprovalRequest.cancel (r : ApprovalRequest) (u : User) : ApprovalRequest :=
  if u.id == r.requested_by || u.role == .ADMIN then
    { r with
      status := ApprovalStatus.CANCELLED
      reviewed_by := some u.id
      reviewed_at := some TimeVal.fieldObject
      document := { r.document with status := DocumentStatus.PENDING } }
  else r

end Apps

/-- `DocumentVersion` rows (`apps/documents/models.py` and
`django_server/documents/models.py` share these fields). -/
structure Version where
  version_number : Nat
  content_markdown : String
  change_description : String
  content_diff : Option String
  author : Nat
deriving DecidableEq, Repr

/-- `versions.order_by('-version_number').first()`: the stored version
with the greatest `version_number`, if any. -/
def lastVersion : List Version → Option Version
  | [] => none
  | v :: vs =>
      match lastVersion vs with
      | none => some v
      | some w => if v.version_number < w.version_number then some w else some v

/-- `(last_version.version_number + 1) if last_version else 1`, the next
version number computed by both trees. -/
def nextVersionNumber (vs : List Version) : Nat :=
  match lastVersion vs with
  | some w => w.version_number + 1
  | none => 1

namespace Apps

/-- `apps/documents/serializers.py` `DocumentUpdateSerializer.update`,
restricted to the content/versioning effect: when `content_markdown` is
among the validated fields a version is created first (snapshotting the
*old* content, with no `content_diff`), then the document content is
replaced.  New versions are prepended, matching the descending
`ordering` of the model. -/
def DocumentUpdateSerializer.update (doc : Document) (vs : List Version)
    (newContent : Option String) (change_description : String) (author : Nat) :
    Document × List Version :=
  match newContent with
  | some c =>
      let v : Version := {
        version_number := nextVersionNumber vs
        content_markdown := doc.content_markdown
        change_description := change_description
        content_diff := none
        author := author }
      ({ doc with content_markdown := c }, v :: vs)
  | none => (doc, vs)

/-- Iterated content updates through `DocumentUpdateSerializer.update`,
one per element of `cs`. -/
def applyContentUpdates (doc : Document) (vs : List Version) (author : Nat) :
    List String → Document × List Version
  | [] => (doc, vs)
  | c :: cs =>
      let p := DocumentUpdateSerializer.update doc vs (some c) "" author
      applyContentUpdates p.1 p.2 author cs

end Apps

namespace DS

/-- `django_server/approvals/models.py` `ApprovalRequest` (fields the
verified operations touch), `document` dereferenced. -/
structure ApprovalRequest where
  document : Document
  requested_by : Nat
  status : ApprovalStatus
  notes : String
  reviewed_by : Option Nat
  reviewed_at : Option TimeVal
deriving DecidableEq, Repr

/-- `django_server/accounts/models.py` `role_hierarchy`, the rank table
inside `User.has_role`: PUBLIC 0, VOLUNTEER 1, COMMITTEE_MEMBER 2,
BOARD_MEMBER 3, PRESIDENT 4, ADMIN 5. -/
def roleRank : UserRole → Nat
  | UserRole.PUBLIC => 0
  | UserRole.VOLUNTEER => 1
  | UserRole.COMMITTEE_MEMBER => 2
  | UserRole.BOARD_MEMBER => 3
  | UserRole.PRESIDENT => 4
  | UserRole.ADMIN => 5

/-- `django_server/accounts/models.py` `User.has_role`: unlike the
`apps`-tree method of the same name, this is a hierarchy check —
"role or higher privilege":
`role_hierarchy.get(self.role, 0) >= role_hierarchy.get(role, 0)`. -/
def has_role (u : User) (r : UserRole) : Bool :=
  decide (roleRank r ≤ roleRank u.role)

/-- `django_server/approvals/models.py` `ApprovalRequest.can_user_review`:
requires `status == PENDING` and the hierarchy check
`user.has_role(required_approval_role)`. -/
def ApprovalRequest.can_user_review (r : ApprovalRequest) (u : User) : Bool :=
  if r.status != ApprovalStatus.PENDING then false
  else has_role u r.document.category.required_approval_role

/-- `django_server/approvals/models.py` `ApprovalRequest.approve`.
`timezone.now()` is sampled twice — once for `reviewed_at` (`now1`) and
once for `document.approved_at` (`now2`); the samples are passed
explicitly.  (The notification side effect is not modelled.) -/
def ApprovalRequest.approve (r : ApprovalRequest) (u : User) (notes : String)
    (now1 now2 : Nat) : ApprovalRequest :=
  let r1 := { r with
    status := ApprovalStatus.APPROVED
    reviewed_by := some u.id
    reviewed_at := some (TimeVal.clock now1) }
  let r2 := if notes != "" then { r1 with notes := notes } else r1
  { r2 with document := { r2.document with
      status := DocumentStatus.APPROVED
      approved_by := some u.id
      approved_at := some (TimeVal.clock now2) } }

/-- `django_server/documents/models.py` `Document.create_version`.
`dmp` abstracts the off-the-shelf `diff_match_patch` pipeline
(`diff_main` + `diff_prettyHtml`): `dmp old new` is the rendered diff of
`old` against `new`.  `content` is `self.content_markdown` at call time,
`vs` the stored versions of the document. -/
def create_version (dmp : String → String → String)
    (content : String) (vs : List Version) (author : Nat)
    (change_description : String) : Version :=
  let last := lastVersion vs
  let number := nextVersionNumber vs
  let diff : Option String :=
    match last with
    | some w => some (dmp w.content_markdown content)
    | none => none
  { version_number := number
    content_markdown := content
    change_description := change_description
    content_diff := diff
    author := author }

end DS

namespace Apps

/-- Error outcomes of the `apps` REST views: `PermissionDenied` (HTTP 403),
serializer `ValidationError` (HTTP 400), `Response(status=400)`,
`get_object_or_404` (HTTP 404). -/
inductive ViewError where
  | permissionDenied
  | validationError
  | badRequest
  | notFound
deriving DecidableEq, Repr

/-- A stored `ApprovalRequest` row as the list/create views see it: the
document referenced by id (`document` FK column). -/
structure ARequestRow where
  document_id : Nat
  requested_by : Nat
  status : ApprovalStatus
  notes : String
deriving DecidableEq, Repr

/-- Database state relevant to the approval-request endpoints. -/
structure AppState where
  documents : List Document
  requests : List ARequestRow
deriving DecidableEq, Repr

/-- `ApprovalRequest.objects.filter(document=document, status='PENDING').exists()`. -/
def pendingExists (reqs : List ARequestRow) (docId : Nat) : Bool :=
  reqs.any (fun r => r.document_id == docId && r.status == ApprovalStatus.PENDING)

/-- `apps/approvals/views.py` `request_approval(request, document_id)`:
404 when the document does not exist; `PermissionDenied` when the caller
may not edit the document; 400 when a PENDING request for it already
exists; otherwise creates one PENDING request by the caller and sets the
document's status to UNDER_REVIEW. -/
def request_approval (st : AppState) (u : User) (docId : Nat) (notes : String) :
    Except ViewError AppState :=
  match st.documents.find? (fun d => d.id == docId) with
  | none => .error .notFound
  | some doc =>
      if ¬ Document.can_be_edited_by doc u then .error .permissionDenied
      else if pendingExists st.requests docId then .error .badRequest
      else
        let newReq : ARequestRow := {
          document_id := docId
          requested_by := u.id
          status := ApprovalStatus.PENDING
          notes := notes }
        .ok {
          documents := st.documents.map (fun d =>
            if d.id == docId then { doc with status := DocumentStatus.UNDER_REVIEW } else d)
          requests := newReq :: st.requests }

/-- `apps/approvals/views.py` `ApprovalRequestListView.perform_create`:
`PermissionDenied` when the caller may not edit the document or a
PENDING request already exists; otherwise creates the request (the
document's status is left unchanged on this path).  The create
serializer has already validated that the document's status is PENDING
or UNDER_REVIEW (`validate_document`). -/
def perform_create (st : AppState) (u : User) (docId : Nat) (notes : String) :
    Except ViewError AppState :=
  match st.documents.find? (fun d => d.id == docId) with
  | none => .error .notFound
  | some doc =>
      if ¬ (doc.status == DocumentStatus.PENDING ||
            doc.status == DocumentStatus.UNDER_REVIEW) then .error .validationError
      else if ¬ Document.can_be_edited_by doc u then .error .permissionDenied
      else if pendingExists st.requests docId then .error .permissionDenied
      else
        .ok { st with requests := {
          document_id := docId
          requested_by := u.id
          status := ApprovalStatus.PENDING
          notes := notes } :: st.requests }

/-- At most one PENDING approval request per document. -/
def atMostOnePending (reqs : List ARequestRow) : Prop :=
  ∀ docId, (reqs.filter (fun r =>
    r.document_id == docId && r.status == ApprovalStatus.PENDING)).length ≤ 1

/-- `apps/approvals/views.py` `ApprovalRequestDetailView.perform_update`
together with `ApprovalRequestReviewSerializer.validate_status` (which
runs first and admits only APPROVED/REJECTED): `PermissionDenied` when
the caller fails `can_be_reviewed_by` or the request is no longer
PENDING; otherwise `approve`/`reject` gives the final state. -/
def perform_update (r : ApprovalRequest) (u : User)
    (newStatus : ApprovalStatus) (notes : Option String) :
    Except ViewError ApprovalRequest :=
  if ¬ (newStatus == ApprovalStatus.APPROVED || newStatus == ApprovalStatus.REJECTED) then
    .error .validationError
  else if ¬ r.can_be_reviewed_by u then .error .permissionDenied
  else if r.status != ApprovalStatus.PENDING then .error .permissionDenied
  else if newStatus == ApprovalStatus.APPROVED then .ok (r.approve u notes)
  else .ok (r.reject u notes)

/-- `apps/approvals/views.py` `ApprovalRequestDetailView.perform_destroy`:
`PermissionDenied` unless the caller is the requester or an ADMIN, or
when the request is no longer PENDING; otherwise `cancel`. -/
def perform_destroy (r : ApprovalRequest) (u : User) :
    Except ViewError ApprovalRequest :=
  if ¬ (r.requested_by == u.id || u.role == UserRole.ADMIN) then .error .permissionDenied
  else if r.status != ApprovalStatus.PENDING then .error .permissionDenied
  else .ok (r.cancel u)

/-- `apps/documents/views.py` `DocumentListView.get_queryset` (the
`DocumentDetailView` queryset applies the same filter): users who can
view all documents see everything, everyone else sees
`Q(is_public=True) | Q(author=user)`. -/
def DocumentListView.get_queryset (u : User) (docs : List Document) : List Document :=
  if u.can_view_all_documents then docs
  else docs.filter (fun d => d.is_public || d.author == u.id)

/-- The response payload of `apps/documents/views.py` `document_diff`
(the fields the property speaks about). -/
structure DiffPayload where
  version1_number : Nat
  version1_content : String
  version2_number : Nat
  version2_content : String
  diff : Bool
deriving DecidableEq, Repr

/-- `apps/documents/views.py` `document_diff`, after the permission and
404 checks: the payload carries both contents and
`'diff': content1 != content2`. -/
def document_diff_payload (v1 v2 : Version) : DiffPayload :=
  { version1_number := v1.version_number
    version1_content := v1.content_markdown
    version2_number := v2.version_number
    version2_content := v2.content_markdown
    diff := v1.content_markdown != v2.content_markdown }

end Apps

/-- `apps/core/utils.py` `can_user_access_document`: view-all role, or
public document, or the document's author. -/
def can_user_access_document (u : User) (d : Document) : Bool :=
  if u.can_view_all_documents then true
  else if d.is_public then true
  else if d.author == u.id then true
  else false

/-- `apps/core/utils.py` `get_user_accessible_documents`. -/
def get_user_accessible_documents (u : User) (docs : List Document) : List Document :=
  if u.can_view_all_documents then docs
  else docs.filter (fun d => d.is_public || d.author == u.id)

namespace Apps

/-- Outcome of the PDF endpoints in `apps/documents/pdf_views.py`
(the 500 branch for renderer exceptions is outside the model). -/
inductive PdfResult where
  | err403
  | err400
  | pdf (filename : String)
deriving DecidableEq, Repr

/-- `apps/documents/pdf_views.py` `generate_pdf`, after `get_object_or_404`:
403 when the caller cannot access the document, otherwise a PDF named
`f"{document.slug}.pdf"`. -/
def generate_pdf (u : User) (d : Document) : PdfResult :=
  if ¬ can_user_access_document u d then .err403
  else .pdf (d.slug ++ ".pdf")

/-- `apps/documents/pdf_views.py` `generate_fillable_pdf`, after
`get_object_or_404`: 403 when the caller cannot access the document,
then 400 when `has_fillable_fields` is false, otherwise a PDF named
`f"{document.slug}_fillable.pdf"`. -/
def generate_fillable_pdf (u : User) (d : Document) : PdfResult :=
  if ¬ can_user_access_document u d then .err403
  else if ¬ d.has_fillable_fields then .err400
  else .pdf (d.slug ++ "_fillable.pdf")

end Apps

/-! ### Unique slug generation (`django_server/documents/models.py`
`Document.generate_unique_slug`; `apps/core/utils.py` `generate_slug`
has the same loop without the `exclude_id` refinement).

Python renders the counter with `f"{slug}-{num}"`; decimal rendering of
the counter is embedded as `natChars`, a model of Python's `str` on
non-negative integers. -/

/-- Decimal digit characters of `n`, most significant first: Python's
`str(n)`. -/
def natChars (n : Nat) : List Char :=
  if hn : n < 10 then [Nat.digitChar n]
  else natChars (n / 10) ++ [Nat.digitChar (n % 10)]
  decreasing_by
    exact Nat.div_lt_self (Nat.lt_of_lt_of_le (by decide) (Nat.le_of_not_lt hn)) (by decide)

/-- The candidate slugs tried by the generation loop, in order:
`base` itself, then `f"{base}-{num}"` for `num = 1, 2, …`. -/
def slugCandidate (base : String) : Nat → String
  | 0 => base
  | n + 1 => base ++ "-" ++ String.mk (natChars (n + 1))

/-- Decode a digit string back to the number (left inverse of `natChars`). -/
def decodeChars (l : List Char) : Nat :=
  l.foldl (fun acc c => acc * 10 + (c.toNat - 48)) 0

/-- Digit characters decode back to their value (termination-oriented
fact about the decimal rendering; Prop-valued so that it can precede the
definitions that depend on it). -/
def decodeChars_natChars : ∀ n : Nat, ∀ a : Nat,
    List.foldl (fun acc c => acc * 10 + (c.toNat - 48)) a (natChars n) =
      a * 10 ^ (natChars n).length + n := by
  intro n
  induction n using Nat.strong_induction_on with
  | _ n ih =>
    intro a
    rw [natChars]
    by_cases h : n < 10
    · simp only [h, reduceDIte, List.foldl_cons, List.foldl_nil, List.length_singleton,
        pow_one]
      have hd : (Nat.digitChar n).toNat - 48 = n := by
        interval_cases n <;> rfl
      rw [hd]
    · have h10 : 10 ≤ n := Nat.le_of_not_lt h
      have hlt : n / 10 < n :=
        Nat.div_lt_self (Nat.lt_of_lt_of_le (by decide) h10) (by decide)
      simp only [h, reduceDIte, List.foldl_append, List.foldl_cons, List.foldl_nil,
        List.length_append, List.length_singleton]
      rw [ih (n / 10) hlt a]
      have hd : (Nat.digitChar (n % 10)).toNat - 48 = n % 10 := by
        have : n % 10 < 10 := Nat.mod_lt n (by decide)
        interval_cases hm : n % 10 <;> rfl
      rw [hd, pow_succ]
      have := Nat.div_add_mod n 10
      ring_nf
      omega

/-- `natChars` never returns the empty list. -/
def natChars_ne_nil : ∀ n : Nat, natChars n ≠ [] := by
  intro n
  rw [natChars]
  by_cases h : n < 10
  · simp [h]
  · simp [h]

/-- The decimal rendering is injective. -/
def natChars_injective : Function.Injective natChars := by
  intro m n hmn
  have hm := decodeChars_natChars m 0
  have hn := decodeChars_natChars n 0
  rw [hmn] at hm
  omega

/-- The candidate slugs `base`, `base-1`, `base-2`, … are pairwise
distinct. -/
def slugCandidate_injective (base : String) :
    Function.Injective (slugCandidate base) := by
  intro m n hmn
  match m, n with
  | 0, 0 => rfl
  | 0, k + 1 =>
      exfalso
      have := congrArg (fun s => s.data.length) hmn
      simp only [slugCandidate, String.data_append] at this
      have hne := natChars_ne_nil (k + 1)
      cases hc : natChars (k + 1) with
      | nil => exact hne hc
      | cons c cs =>
          simp [hc, List.length_append] at this
  | k + 1, 0 =>
      exfalso
      have := congrArg (fun s => s.data.length) hmn
      simp only [slugCandidate, String.data_append] at this
      have hne := natChars_ne_nil (k + 1)
      cases hc : natChars (k + 1) with
      | nil => exact hne hc
      | cons c cs =>
          simp [hc, List.length_append] at this
  | j + 1, k + 1 =>
      have hdata := congrArg String.data hmn
      simp only [slugCandidate, String.data_append] at hdata
      exact natChars_injective (List.append_cancel_left hdata)

/-- Some candidate slug avoids any finite collection of existing slugs:
the generation loop terminates. -/
def slug_exists_unused (base : String) (existing : List String) :
    ∃ n, slugCandidate base n ∉ existing := by
  by_contra hall
  push_neg at hall
  have hmem : ∀ n : Nat, slugCandidate base n ∈ existing.toFinset := by
    intro n
    simpa using hall n
  obtain ⟨x, y, hxy, hfeq⟩ :=
    Finite.exists_ne_map_eq_of_infinite
      (fun n : Nat => (⟨slugCandidate base n, hmem n⟩ : {s // s ∈ existing.toFinset}))
  exact hxy (slugCandidate_injective base (congrArg Subtype.val hfeq))

/-- `django_server/documents/models.py` `Document.generate_unique_slug`
(and `apps/core/utils.py` `generate_slug` without `exclude_id`): try
`base`, then `base-1`, `base-2`, …, and return the first candidate not
used by an existing document.  The while loop's denotation is the least
unused candidate index. -/
def generate_unique_slug (base : String) (existing : List String) : String :=
  slugCandidate base (Nat.find (slug_exists_unused base existing))

/-- The list `[n, n-1, …, 2, 1]`: the version numbers stored after `n`
content updates of a fresh document (newest first). -/
def countdown : Nat → List Nat
  | 0 => []
  | n + 1 => (n + 1) :: countdown n

/-- The approval-permission formula exactly as the property under
scrutiny states it (stated from the specification's words, *not* from
the source, for comparison against the three source-level checks):
true iff the user is ADMIN, or PRESIDENT, or a BOARD_MEMBER reviewing a
category whose required approval role is BOARD_MEMBER, COMMITTEE_MEMBER
or VOLUNTEER. -/
def claimedApprovalCheck (u : User) (required : UserRole) : Bool :=
  u.role == .ADMIN || u.role == .PRESIDENT ||
  (u.role == .BOARD_MEMBER &&
    (required == .BOARD_MEMBER || required == .COMMITTEE_MEMBER ||
     required == .VOLUNTEER))

/-! ### Concrete fixtures used by counterexamples and witnesses -/

/-- A category whose approvals require a BOARD_MEMBER. -/
def catBoard : Category := { required_approval_role := UserRole.BOARD_MEMBER }

/-- An ADMIN user. -/
def uAdmin : User := { id := 1, role := UserRole.ADMIN }

/-- A VOLUNTEER user, id 5. -/
def uVol : User := { id := 5, role := UserRole.VOLUNTEER }

/-- A VOLUNTEER user, id 9 (not the author of `docPlain`). -/
def uOther : User := { id := 9, role := UserRole.VOLUNTEER }

/-- A PENDING private document authored by user 5, without fillable
fields. -/
def docPlain : Document := {
  id := 1
  title := "Bylaws"
  slug := "bylaws"
  category := catBoard
  status := DocumentStatus.PENDING
  content_markdown := "body"
  is_public := false
  has_fillable_fields := false
  author := 5
  approved_by := none
  approved_at := none }

/-- The same document after its approval went through: status APPROVED. -/
def docApproved : Document := { docPlain with status := DocumentStatus.APPROVED }

/-- A PENDING approval request by user 5 for `docPlain` (`apps` tree). -/
def reqPending : Apps.ApprovalRequest := {
  document := docPlain
  requested_by := 5
  status := ApprovalStatus.PENDING
  notes := none
  reviewed_by := none
  reviewed_at := none }

/-- A PENDING approval request by user 5 for `docPlain` (`django_server`
tree). -/
def dsReqPending : DS.ApprovalRequest := {
  document := docPlain
  requested_by := 5
  status := ApprovalStatus.PENDING
  notes := ""
  reviewed_by := none
  reviewed_at := none }

/-- A PRESIDENT user. -/
def uPres : User := { id := 2, role := UserRole.PRESIDENT }

/-- A COMMITTEE_MEMBER user. -/
def uComm : User := { id := 3, role := UserRole.COMMITTEE_MEMBER }

/-- A PENDING `django_server` request whose category requires ADMIN
approval. -/
def dsReqAdminCat : DS.ApprovalRequest := { dsReqPending with
  document := { docPlain with
    category := { required_approval_role := UserRole.ADMIN } } }

/-- A PENDING `django_server` request whose category requires VOLUNTEER
approval. -/
def dsReqVolCat : DS.ApprovalRequest := { dsReqPending with
  document := { docPlain with
    category := { required_approval_role := UserRole.VOLUNTEER } } }

/-- A database state holding only `docApproved`, with no approval
requests. -/
def stApproved : Apps.AppState := { documents := [docApproved], requests := [] }

/-- Concrete stored versions with contents "x", "y", "z". -/
def verX : Version := {
  version_number := 1, content_markdown := "x", change_description := ""
  content_diff := none, author := 5 }

/-- Version with content "y". -/
def verY : Version := { verX with version_number := 2, content_markdown := "y" }

/-- Version with content "z". -/
def verZ : Version := { verX with version_number := 3, content_markdown := "z" }

/-! ### Helper lemmas -/

theorem lastVersion_eq_none : ∀ vs : List Version, lastVersion vs = none → vs = [] := by
  intro vs h
  cases vs with
  | nil => rfl
  | cons v vs =>
      simp only [lastVersion] at h
      cases hlv : lastVersion vs with
      | none => rw [hlv] at h; exact absurd h (by simp)
      | some w =>
          rw [hlv] at h
          by_cases hc : v.version_number < w.version_number <;> simp [hc] at h

theorem lastVersion_spec : ∀ (vs : List Version) (w : Version),
    lastVersion vs = some w →
      w ∈ vs ∧ ∀ v ∈ vs, v.version_number ≤ w.version_number := by
  intro vs
  induction vs with
  | nil => intro w h; simp [lastVersion] at h
  | cons v vs ih =>
      intro w h
      simp only [lastVersion] at h
      cases hlv : lastVersion vs with
      | none =>
          rw [hlv] at h
          have hvs : vs = [] := lastVersion_eq_none vs hlv
          cases h
          subst hvs
          refine ⟨List.mem_cons_self _ _, ?_⟩
          intro x hx
          rcases List.mem_cons.mp hx with rfl | hx2
          · exact le_refl _
          · simp at hx2
      | some w2 =>
          rw [hlv] at h
          obtain ⟨hmem, hbound⟩ := ih w2 hlv
          by_cases hc : v.version_number < w2.version_number
          · simp only [hc, if_true] at h
            cases h
            refine ⟨List.mem_cons_of_mem _ hmem, ?_⟩
            intro x hx
            rcases List.mem_cons.mp hx with rfl | hx2
            · exact le_of_lt hc
            · exact hbound x hx2
          · simp only [hc, if_false] at h
            cases h
            refine ⟨List.mem_cons_self _ _, ?_⟩
            intro x hx
            rcases List.mem_cons.mp hx with rfl | hx2
            · exact le_refl _
            · exact le_trans (hbound x hx2) (Nat.le_of_not_lt hc)

theorem countdown_mem : ∀ (n k : Nat), k ∈ countdown n ↔ 1 ≤ k ∧ k ≤ n := by
  intro n
  induction n with
  | zero => intro k; simp [countdown]; omega
  | succ n ih =>
      intro k
      simp [countdown, ih k]
      omega

theorem nextVersionNumber_countdown : ∀ (vs : List Version) (n : Nat),
    vs.map (fun v => v.version_number) = countdown n →
    nextVersionNumber vs = n + 1 := by
  intro vs n h
  cases n with
  | zero =>
      have hnil : List.map (fun v => v.version_number) vs = [] := by
        simpa [countdown] using h
      have : vs = [] := List.map_eq_nil_iff.mp hnil
      subst this
      rfl
  | succ n =>
      cases vs with
      | nil => simp [countdown] at h
      | cons v vs =>
          simp only [List.map_cons, countdown, List.cons.injEq] at h
          obtain ⟨hv, hvs⟩ := h
          cases hlv : lastVersion (v :: vs) with
          | none => exact absurd (lastVersion_eq_none _ hlv) (by simp)
          | some w =>
              have hnv : nextVersionNumber (v :: vs) = w.version_number + 1 := by
                unfold nextVersionNumber
                rw [hlv]
              rw [hnv]
              obtain ⟨hmem, hbound⟩ := lastVersion_spec _ _ hlv
              have hup : w.version_number ≤ n + 1 := by
                have : w.version_number ∈ (v :: vs).map (fun v => v.version_number) :=
                  List.mem_map_of_mem _ hmem
                rw [List.map_cons, hv, hvs] at this
                rcases List.mem_cons.mp this with heq | hmem2
                · omega
                · exact ((countdown_mem n _).mp hmem2).2.trans (Nat.le_succ n)
              have hlo : n + 1 ≤ w.version_number := by
                have := hbound v (List.mem_cons_self _ _)
                omega
              omega

theorem applyContentUpdates_countdown :
    ∀ (cs : List String) (doc : Document) (vs : List Version) (n a : Nat),
      vs.map (fun v => v.version_number) = countdown n →
      ((Apps.applyContentUpdates doc vs a cs).2).map (fun v => v.version_number) =
        countdown (n + cs.length) := by
  intro cs
  induction cs with
  | nil =>
      intro doc vs n a h
      simpa [Apps.applyContentUpdates] using h
  | cons c cs ih =>
      intro doc vs n a h
      have hnext := nextVersionNumber_countdown vs n h
      have hstep :
          ((Apps.DocumentUpdateSerializer.update doc vs (some c) "" a).2).map
            (fun v => v.version_number) = countdown (n + 1) := by
        simp [Apps.DocumentUpdateSerializer.update, countdown, hnext, h]
      have := ih ((Apps.DocumentUpdateSerializer.update doc vs (some c) "" a).1)
        ((Apps.DocumentUpdateSerializer.update doc vs (some c) "" a).2)
        (n + 1) a hstep
      simp only [Apps.applyContentUpdates]
      rw [this]
      congr 1
      simp [List.length_cons]
      omega

theorem pendingExists_false_iff (reqs : List Apps.ARequestRow) (docId : Nat) :
    Apps.pendingExists reqs docId = false ↔
      ∀ r ∈ reqs,
        (r.document_id == docId && r.status == ApprovalStatus.PENDING) = false := by
  simp [Apps.pendingExists, List.any_eq_false]

/-! ### Claim theorems -/

/-- C1: evaluating `apps/approvals/models.py` `ApprovalRequest.approve` on a
concrete PENDING request shows that while status, reviewer and the
document's status/approver are set as the property states, the value
stored in `reviewed_at` — and copied into the document's `approved_at` —
is the `models.DateTimeField(auto_now=True)` field object, not the time
of the review. -/
theorem C1_approve_assigns_field_object_not_review_time :
    (Apps.ApprovalRequest.approve reqPending uAdmin none).status =
        ApprovalStatus.APPROVED ∧
    (Apps.ApprovalRequest.approve reqPending uAdmin none).reviewed_by =
        some uAdmin.id ∧
    (Apps.ApprovalRequest.approve reqPending uAdmin none).document.status =
        DocumentStatus.APPROVED ∧
    (Apps.ApprovalRequest.approve reqPending uAdmin none).document.approved_by =
        some uAdmin.id ∧
    (Apps.ApprovalRequest.approve reqPending uAdmin none).reviewed_at =
        some TimeVal.fieldObject ∧
    (Apps.ApprovalRequest.approve reqPending uAdmin none).document.approved_at =
        some TimeVal.fieldObject := by
  refine ⟨rfl, rfl, rfl, rfl, rfl, rfl⟩

/-- C2: a content update creates a version numbered one above the largest
stored version number (`lastVersion` really is the largest), 1 when the
document has no versions; after `n` content updates from a fresh
document the stored numbers are exactly `n, …, 1`, i.e. the `k` with
`1 ≤ k ≤ n`. -/
theorem C2_version_numbers_increment :
    (∀ (doc : Document) (vs : List Version) (c cd : String) (a : Nat) (w : Version),
        lastVersion vs = some w →
        ((Apps.DocumentUpdateSerializer.update doc vs (some c) cd a).2).map
            (fun v => v.version_number) =
          (w.version_number + 1) :: vs.map (fun v => v.version_number) ∧
        w ∈ vs ∧ ∀ v ∈ vs, v.version_number ≤ w.version_number) ∧
    (∀ (doc : Document) (c cd : String) (a : Nat),
        ((Apps.DocumentUpdateSerializer.update doc [] (some c) cd a).2).map
            (fun v => v.version_number) = [1]) ∧
    (∀ (doc : Document) (a : Nat) (cs : List String),
        ((Apps.applyContentUpdates doc [] a cs).2).map (fun v => v.version_number) =
          countdown cs.length) ∧
    (∀ n k, k ∈ countdown n ↔ 1 ≤ k ∧ k ≤ n) := by
  refine ⟨?_, ?_, ?_, countdown_mem⟩
  · intro doc vs c cd a w hw
    refine ⟨?_, (lastVersion_spec vs w hw).1, (lastVersion_spec vs w hw).2⟩
    simp [Apps.DocumentUpdateSerializer.update, nextVersionNumber, hw]
  · intro doc c cd a
    simp [Apps.DocumentUpdateSerializer.update, nextVersionNumber, lastVersion]
  · intro doc a cs
    simpa using applyContentUpdates_countdown cs doc [] 0 a (by simp [countdown])

/-- C2 witness: the increment behaviour at concrete inputs. -/
theorem C2_version_numbers_increment_witness :
    lastVersion [verX] = some verX ∧
    ((Apps.DocumentUpdateSerializer.update docPlain [verX] (some "new") "" 5).2).map
        (fun v => v.version_number) = [2, 1] ∧
    ((Apps.applyContentUpdates docPlain [] 5 ["a", "b", "c"]).2).map
        (fun v => v.version_number) = [3, 2, 1] := by
  refine ⟨rfl, ?_, ?_⟩
  · simpa using
      (C2_version_numbers_increment.1 docPlain [verX] "new" "" 5 verX rfl).1
  · simpa [countdown] using
      C2_version_numbers_increment.2.2.1 docPlain 5 ["a", "b", "c"]

/-- C3 counterexample: two content updates through
`apps/documents/serializers.py` `DocumentUpdateSerializer.update` leave
the second version's `content_diff` empty, refuting that every version
after the first stores a diff. -/
theorem C3_second_version_has_no_diff :
    ((Apps.applyContentUpdates docPlain [] 5 ["alpha", "beta"]).2).map
        (fun v => (v.version_number, v.content_diff)) = [(2, none), (1, none)] := by
  rfl

/-- C3 amended: versions created by `django_server/documents/models.py`
`Document.create_version` after the first store the library diff of the
previous version's content against the new content and only the first
version has an empty diff, while versions created by the `apps`
update serializer never set `content_diff` at all. -/
theorem C3_diff_only_in_django_server_create_version :
    (∀ (dmp : String → String → String) (content : String) (vs : List Version)
        (a : Nat) (cd : String) (w : Version),
        lastVersion vs = some w →
        (DS.create_version dmp content vs a cd).content_diff =
          some (dmp w.content_markdown content)) ∧
    (∀ (dmp : String → String → String) (content : String) (a : Nat) (cd : String),
        (DS.create_version dmp content [] a cd).content_diff = none) ∧
    (∀ (doc : Document) (vs : List Version) (c cd : String) (a : Nat) (v : Version),
        v ∈ (Apps.DocumentUpdateSerializer.update doc vs (some c) cd a).2 →
          v ∈ vs ∨ v.content_diff = none) := by
  refine ⟨?_, ?_, ?_⟩
  · intro dmp content vs a cd w hw
    simp [DS.create_version, hw]
  · intro dmp content a cd
    rfl
  · intro doc vs c cd a v hv
    simp only [Apps.DocumentUpdateSerializer.update, List.mem_cons] at hv
    rcases hv with rfl | h
    · right; rfl
    · left; exact h

/-- C3 witness: the diff stored at concrete inputs, with a concrete
rendering function standing for `diff_match_patch`. -/
theorem C3_diff_witness :
    lastVersion [verX] = some verX ∧
    (DS.create_version (fun old new => old ++ "|" ++ new) "y" [verX] 5 "").content_diff =
      some "x|y" ∧
    (DS.create_version (fun old new => old ++ "|" ++ new) "y" [] 5 "").content_diff =
      none ∧
    ((Apps.DocumentUpdateSerializer.update docPlain [] (some "c") "" 5).2).map
      (fun v => v.content_diff) = [none] := by
  refine ⟨rfl, ?_, ?_, rfl⟩
  · have := C3_diff_only_in_django_server_create_version.1
      (fun old new => old ++ "|" ++ new) "y" [verX] 5 "" verX rfl
    simpa using this
  · exact C3_diff_only_in_django_server_create_version.2.1
      (fun old new => old ++ "|" ++ new) "y" 5 ""

/-- C5 counterexample: `django_server/approvals/models.py`
`ApprovalRequest.can_user_review` (one of the checks the property
describes) diverges from the stated formula in both directions:
a PRESIDENT is denied on a PENDING request whose category requires
ADMIN (the formula says True for every PRESIDENT), a COMMITTEE_MEMBER
is allowed on a PENDING request whose category requires VOLUNTEER (the
formula says False for that role), and an ADMIN is denied once the
request is no longer PENDING (the formula says True for every ADMIN). -/
theorem C5_hierarchy_check_diverges_from_formula :
    DS.ApprovalRequest.can_user_review dsReqAdminCat uPres = false ∧
    claimedApprovalCheck uPres
      dsReqAdminCat.document.category.required_approval_role = true ∧
    DS.ApprovalRequest.can_user_review dsReqVolCat uComm = true ∧
    claimedApprovalCheck uComm
      dsReqVolCat.document.category.required_approval_role = false ∧
    DS.ApprovalRequest.can_user_review
      { dsReqPending with status := ApprovalStatus.APPROVED } uAdmin = false ∧
    claimedApprovalCheck uAdmin
      dsReqPending.document.category.required_approval_role = true := by
  refine ⟨rfl, rfl, rfl, rfl, rfl, rfl⟩

/-- C5 amended: the two `apps`-tree checks
(`Document.can_be_approved_by`, `ApprovalRequest.can_be_reviewed_by`)
equal the stated ADMIN/PRESIDENT/BOARD_MEMBER formula on every input,
while `django_server`'s `can_user_review` instead returns True exactly
when the request is still PENDING and the user's role ranks at least
the category's required approval role in the hierarchy
PUBLIC < VOLUNTEER < COMMITTEE_MEMBER < BOARD_MEMBER < PRESIDENT <
ADMIN. -/
theorem C5_role_checks_characterized :
    (∀ (d : Document) (u : User),
        Apps.Document.can_be_approved_by d u =
          claimedApprovalCheck u d.category.required_approval_role) ∧
    (∀ (r : Apps.ApprovalRequest) (u : User),
        Apps.ApprovalRequest.can_be_reviewed_by r u =
          claimedApprovalCheck u r.document.category.required_approval_role) ∧
    (∀ (r : DS.ApprovalRequest) (u : User),
        DS.ApprovalRequest.can_user_review r u =
          ((r.status == ApprovalStatus.PENDING) &&
            decide (DS.roleRank r.document.category.required_approval_role ≤
              DS.roleRank u.role))) := by
  refine ⟨?_, ?_, ?_⟩
  · intro d u
    cases hu : u.role <;> cases hc : d.category.required_approval_role <;>
      simp [Apps.Document.can_be_approved_by, claimedApprovalCheck, hu, hc]
  · intro r u
    cases hu : u.role <;> cases hc : r.document.category.required_approval_role <;>
      simp [Apps.ApprovalRequest.can_be_reviewed_by, claimedApprovalCheck, hu, hc]
  · intro r u
    cases hs : r.status <;>
      simp [DS.ApprovalRequest.can_user_review, DS.has_role, hs]

/-- C6 counterexample: the version-diff payload for "x"→"y" equals the
payload's diff for "x"→"z" (both are just `true`), so the endpoint's
diff does not identify what changed between the contents. -/
theorem C6_diff_does_not_identify_change :
    (Apps.document_diff_payload verX verY).diff =
      (Apps.document_diff_payload verX verZ).diff ∧
    verY.content_markdown ≠ verZ.content_markdown ∧
    (Apps.document_diff_payload verX verY).diff = true := by
  refine ⟨rfl, by decide, rfl⟩

/-- C6 amended: the diff field returned by `document_diff` is the bare
boolean `content1 != content2` — it records only whether the two
contents differ — alongside the two full contents. -/
theorem C6_diff_is_boolean_inequality :
    ∀ v1 v2 : Version,
      ((Apps.document_diff_payload v1 v2).diff = true ↔
        v1.content_markdown ≠ v2.content_markdown) ∧
      (Apps.document_diff_payload v1 v2).version1_content = v1.content_markdown ∧
      (Apps.document_diff_payload v1 v2).version2_content = v2.content_markdown := by
  intro v1 v2
  refine ⟨?_, rfl, rfl⟩
  simp [Apps.document_diff_payload, bne_iff_ne]


theorem atMostOnePending_insert (reqs : List Apps.ARequestRow) (nr : Apps.ARequestRow)
    (hpend : Apps.pendingExists reqs nr.document_id = false)
    (h : Apps.atMostOnePending reqs) : Apps.atMostOnePending (nr :: reqs) := by
  intro docId2
  rw [List.filter_cons]
  by_cases hd : (nr.document_id == docId2 && nr.status == ApprovalStatus.PENDING) = true
  · rw [if_pos hd]
    have hdoc : nr.document_id = docId2 := by
      have := (Bool.and_eq_true _ _).mp hd
      exact beq_iff_eq.mp this.1
    have hnone : reqs.filter (fun r =>
        r.document_id == docId2 && r.status == ApprovalStatus.PENDING) = [] := by
      rw [List.filter_eq_nil_iff]
      intro r hr
      have hfalse := (pendingExists_false_iff reqs nr.document_id).mp hpend r hr
      rw [hdoc] at hfalse
      simp [hfalse]
    rw [hnone]
    simp
  · rw [if_neg hd]
    exact h docId2

/-- C4 counterexample: a document whose status is APPROVED, with no
pending approval request: its author's request-approval call fails with
`PermissionDenied` even though no PENDING request exists, refuting that
the operation errors only in the duplicate-pending case. -/
theorem C4_error_without_pending_request :
    Apps.request_approval stApproved uVol 1 "" =
      Except.error Apps.ViewError.permissionDenied ∧
    Apps.pendingExists stApproved.requests 1 = false := by
  refine ⟨rfl, rfl⟩

/-- C4 amended: `request_approval` errors when the document is missing,
when the caller may not edit it, or when a PENDING request exists;
otherwise it creates exactly one PENDING request by the caller and sets
the document UNDER_REVIEW.  Both creation endpoints preserve the at-
most-one-PENDING-request-per-document invariant. -/
theorem C4_request_approval_characterized :
    ∀ (st : Apps.AppState) (u : User) (docId : Nat) (notes : String),
      (∀ doc, st.documents.find? (fun d => d.id == docId) = some doc →
        (Apps.Document.can_be_edited_by doc u = false →
            Apps.request_approval st u docId notes =
              Except.error Apps.ViewError.permissionDenied) ∧
        (Apps.Document.can_be_edited_by doc u = true →
            Apps.pendingExists st.requests docId = true →
            Apps.request_approval st u docId notes =
              Except.error Apps.ViewError.badRequest) ∧
        (Apps.Document.can_be_edited_by doc u = true →
            Apps.pendingExists st.requests docId = false →
            Apps.request_approval st u docId notes = Except.ok (Apps.AppState.mk
              (st.documents.map (fun d =>
                if d.id == docId then
                  { doc with status := DocumentStatus.UNDER_REVIEW } else d))
              (Apps.ARequestRow.mk docId u.id ApprovalStatus.PENDING notes
                :: st.requests)))) ∧
      (st.documents.find? (fun d => d.id == docId) = none →
        Apps.request_approval st u docId notes =
          Except.error Apps.ViewError.notFound) ∧
      (∀ st2, Apps.request_approval st u docId notes = Except.ok st2 →
        Apps.atMostOnePending st.requests → Apps.atMostOnePending st2.requests) ∧
      (∀ st2, Apps.perform_create st u docId notes = Except.ok st2 →
        Apps.atMostOnePending st.requests → Apps.atMostOnePending st2.requests) := by
  intro st u docId notes
  refine ⟨?_, ?_, ?_, ?_⟩
  · intro doc hfind
    refine ⟨?_, ?_, ?_⟩
    · intro hedit
      unfold Apps.request_approval
      rw [hfind]
      simp [hedit]
    · intro hedit hpend
      unfold Apps.request_approval
      rw [hfind]
      simp [hedit, hpend]
    · intro hedit hpend
      unfold Apps.request_approval
      rw [hfind]
      simp [hedit, hpend]
  · intro hfind
    unfold Apps.request_approval
    rw [hfind]
  · intro st2 hok hinv
    unfold Apps.request_approval at hok
    cases hfind : st.documents.find? (fun d => d.id == docId) with
    | none => rw [hfind] at hok; exact absurd hok (by simp)
    | some doc =>
        rw [hfind] at hok
        by_cases hedit : Apps.Document.can_be_edited_by doc u = true
        · by_cases hpend : Apps.pendingExists st.requests docId = true
          · simp [hedit, hpend] at hok
          · have hpf : Apps.pendingExists st.requests docId = false := by
              simpa using hpend
            simp only [hedit, hpf, not_true_eq_false, if_false, Bool.false_eq_true,
              not_false_eq_true, if_true, Except.ok.injEq] at hok
            subst hok
            exact atMostOnePending_insert st.requests _ hpf hinv
        · simp [hedit] at hok
  · intro st2 hok hinv
    unfold Apps.perform_create at hok
    cases hfind : st.documents.find? (fun d => d.id == docId) with
    | none => rw [hfind] at hok; exact absurd hok (by simp)
    | some doc =>
        rw [hfind] at hok
        by_cases hst : (doc.status == DocumentStatus.PENDING ||
            doc.status == DocumentStatus.UNDER_REVIEW) = true
        · by_cases hedit : Apps.Document.can_be_edited_by doc u = true
          · by_cases hpend : Apps.pendingExists st.requests docId = true
            · simp [hst, hedit, hpend] at hok
            · have hpf : Apps.pendingExists st.requests docId = false := by
                simpa using hpend
              simp only [hst, hedit, hpf, not_true_eq_false, if_false,
                Bool.false_eq_true, not_false_eq_true, if_true,
                Except.ok.injEq] at hok
              subst hok
              exact atMostOnePending_insert st.requests _ hpf hinv
          · simp [hst, hedit] at hok
        · simp [hst] at hok

/-- C4 witness: the amended behaviour at concrete inputs — the author of
a PENDING document successfully requests approval; the new state carries
the UNDER_REVIEW document and exactly one PENDING request. -/
theorem C4_request_approval_witness :
    (Apps.AppState.mk [docPlain] []).documents.find? (fun d => d.id == 1) =
        some docPlain ∧
    Apps.Document.can_be_edited_by docPlain uVol = true ∧
    Apps.request_approval (Apps.AppState.mk [docPlain] []) uVol 1 "please" =
      Except.ok (Apps.AppState.mk
        [{ docPlain with status := DocumentStatus.UNDER_REVIEW }]
        [Apps.ARequestRow.mk 1 5 ApprovalStatus.PENDING "please"]) ∧
    Apps.atMostOnePending [Apps.ARequestRow.mk 1 5 ApprovalStatus.PENDING "please"] := by
  refine ⟨rfl, rfl, ?_, ?_⟩
  · have h := (C4_request_approval_characterized
      (Apps.AppState.mk [docPlain] []) uVol 1 "please").1 docPlain rfl
    have h2 := h.2.2 rfl rfl
    simpa [docPlain, uVol] using h2
  · intro d
    exact le_trans (List.length_filter_le _ _) (by simp)

/-- C7 counterexample: a non-fillable private document requested by a
non-author VOLUNTEER: the fillable-PDF endpoint answers 403, not the 400
the property promises whenever `has_fillable_fields` is False — the
access check runs first. -/
theorem C7_access_check_precedes_fillable_check :
    Apps.generate_fillable_pdf uOther docPlain = Apps.PdfResult.err403 ∧
    docPlain.has_fillable_fields = false ∧
    Apps.PdfResult.err403 ≠ Apps.PdfResult.err400 := by
  refine ⟨rfl, rfl, by decide⟩

/-- C7 amended: with the 403 access check taking precedence, the
fillable-PDF endpoint answers 403 without access, 400 with access but no
fillable fields, and otherwise a PDF named from the slug; the plain
endpoint behaves the same minus the fillable check; and lacking access
is exactly: no view-all role, not public, not the author. -/
theorem C7_pdf_endpoints_characterized :
    ∀ (u : User) (d : Document),
      (can_user_access_document u d = false →
        Apps.generate_fillable_pdf u d = Apps.PdfResult.err403 ∧
        Apps.generate_pdf u d = Apps.PdfResult.err403) ∧
      (can_user_access_document u d = true → d.has_fillable_fields = false →
        Apps.generate_fillable_pdf u d = Apps.PdfResult.err400) ∧
      (can_user_access_document u d = true → d.has_fillable_fields = true →
        Apps.generate_fillable_pdf u d =
          Apps.PdfResult.pdf (d.slug ++ "_fillable.pdf")) ∧
      (can_user_access_document u d = true →
        Apps.generate_pdf u d = Apps.PdfResult.pdf (d.slug ++ ".pdf")) ∧
      (can_user_access_document u d = false ↔
        (u.can_view_all_documents = false ∧ d.is_public = false ∧
          d.author ≠ u.id)) := by
  intro u d
  refine ⟨?_, ?_, ?_, ?_, ?_⟩
  · intro hacc
    exact ⟨by simp [Apps.generate_fillable_pdf, hacc],
           by simp [Apps.generate_pdf, hacc]⟩
  · intro hacc hfill
    simp [Apps.generate_fillable_pdf, hacc, hfill]
  · intro hacc hfill
    simp [Apps.generate_fillable_pdf, hacc, hfill]
  · intro hacc
    simp [Apps.generate_pdf, hacc]
  · unfold can_user_access_document
    by_cases h1 : u.can_view_all_documents = true <;>
      by_cases h2 : d.is_public = true <;>
        by_cases h3 : (d.author == u.id) = true <;>
          simp_all [beq_iff_eq]

/-- C7 witness: the amended behaviour at concrete inputs — a stranger
gets 403 on both endpoints, the author gets 400 on the non-fillable
document, and gets suitably named PDFs when allowed. -/
theorem C7_pdf_witness :
    can_user_access_document uOther docPlain = false ∧
    Apps.generate_fillable_pdf uOther docPlain = Apps.PdfResult.err403 ∧
    Apps.generate_pdf uOther docPlain = Apps.PdfResult.err403 ∧
    can_user_access_document uVol docPlain = true ∧
    Apps.generate_fillable_pdf uVol docPlain = Apps.PdfResult.err400 ∧
    Apps.generate_fillable_pdf uVol { docPlain with has_fillable_fields := true } =
      Apps.PdfResult.pdf "bylaws_fillable.pdf" ∧
    Apps.generate_pdf uVol docPlain = Apps.PdfResult.pdf "bylaws.pdf" := by
  refine ⟨rfl, ?_, ?_, rfl, ?_, ?_, ?_⟩
  · exact ((C7_pdf_endpoints_characterized uOther docPlain).1 rfl).1
  · exact ((C7_pdf_endpoints_characterized uOther docPlain).1 rfl).2
  · exact (C7_pdf_endpoints_characterized uVol docPlain).2.1 rfl rfl
  · exact (C7_pdf_endpoints_characterized uVol
      { docPlain with has_fillable_fields := true }).2.2.1 rfl rfl
  · exact (C7_pdf_endpoints_characterized uVol docPlain).2.2.2.1 rfl

theorem approve_status (r : Apps.ApprovalRequest) (u : User) (n : Option String) :
    (Apps.ApprovalRequest.approve r u n).status = ApprovalStatus.APPROVED := by
  cases n <;> rfl

theorem reject_status (r : Apps.ApprovalRequest) (u : User) (n : Option String) :
    (Apps.ApprovalRequest.reject r u n).status = ApprovalStatus.REJECTED := by
  cases n <;> rfl

theorem cancel_status_of_guard (r : Apps.ApprovalRequest) (u : User)
    (hg : (r.requested_by == u.id || u.role == UserRole.ADMIN) = true) :
    (Apps.ApprovalRequest.cancel r u).status = ApprovalStatus.CANCELLED := by
  unfold Apps.ApprovalRequest.cancel
  have hg2 : (u.id == r.requested_by || u.role == UserRole.ADMIN) = true := by
    rcases Bool.or_eq_true _ _ |>.mp hg with h | h
    · exact Bool.or_eq_true _ _ |>.mpr (Or.inl (by simp [beq_iff_eq] at h ⊢; omega))
    · exact Bool.or_eq_true _ _ |>.mpr (Or.inr h)
  rw [if_pos hg2]

theorem perform_update_ok_inv :
    ∀ (r : Apps.ApprovalRequest) (u : User) (s : ApprovalStatus)
      (n : Option String) (r2 : Apps.ApprovalRequest),
      Apps.perform_update r u s n = Except.ok r2 →
      r.status = ApprovalStatus.PENDING ∧
      (r2.status = ApprovalStatus.APPROVED ∨ r2.status = ApprovalStatus.REJECTED) := by
  intro r u s n r2 hok
  unfold Apps.perform_update at hok
  by_cases h1 : (s == ApprovalStatus.APPROVED || s == ApprovalStatus.REJECTED) = true
  · by_cases h2 : Apps.ApprovalRequest.can_be_reviewed_by r u = true
    · by_cases h3 : r.status = ApprovalStatus.PENDING
      · refine ⟨h3, ?_⟩
        rw [if_neg (by simp [h1]), if_neg (by simp [h2]),
          if_neg (by simp [bne_iff_ne, h3])] at hok
        by_cases h4 : (s == ApprovalStatus.APPROVED) = true
        · rw [if_pos h4] at hok
          cases hok
          exact Or.inl (approve_status r u n)
        · rw [if_neg h4] at hok
          cases hok
          exact Or.inr (reject_status r u n)
      · rw [if_neg (by simp [h1]), if_neg (by simp [h2]),
          if_pos (by simp [bne_iff_ne, h3])] at hok
        exact absurd hok (by simp)
    · rw [if_neg (by simp [h1]), if_pos (by simp [h2])] at hok
      exact absurd hok (by simp)
  · rw [if_pos (by simp [h1])] at hok
    exact absurd hok (by simp)

theorem perform_destroy_ok_inv :
    ∀ (r : Apps.ApprovalRequest) (u : User) (r2 : Apps.ApprovalRequest),
      Apps.perform_destroy r u = Except.ok r2 →
      r.status = ApprovalStatus.PENDING ∧ r2.status = ApprovalStatus.CANCELLED := by
  intro r u r2 hok
  unfold Apps.perform_destroy at hok
  by_cases h1 : (r.requested_by == u.id || u.role == UserRole.ADMIN) = true
  · by_cases h2 : r.status = ApprovalStatus.PENDING
    · refine ⟨h2, ?_⟩
      rw [if_neg (by simp [h1]), if_neg (by simp [bne_iff_ne, h2])] at hok
      cases hok
      exact cancel_status_of_guard r u h1
    · rw [if_neg (by simp [h1]), if_pos (by simp [bne_iff_ne, h2])] at hok
      exact absurd hok (by simp)
  · rw [if_pos (by simp [h1])] at hok
    exact absurd hok (by simp)

/-- C8: any approval request whose status is not PENDING is refused by
both the review (update) and cancel (destroy) operations — with a
permission error once the serializer/ownership guards pass — and a
successful operation starts from PENDING and ends in APPROVED, REJECTED
or CANCELLED; states reached by a successful operation are terminal. -/
theorem C8_non_pending_requests_are_terminal :
    ∀ (r : Apps.ApprovalRequest) (u : User) (s : ApprovalStatus) (n : Option String),
      (r.status ≠ ApprovalStatus.PENDING →
        (Apps.perform_update r u s n = Except.error Apps.ViewError.validationError ∨
         Apps.perform_update r u s n = Except.error Apps.ViewError.permissionDenied) ∧
        Apps.perform_destroy r u = Except.error Apps.ViewError.permissionDenied) ∧
      (Apps.ApprovalRequest.can_be_reviewed_by r u = true →
        (s = ApprovalStatus.APPROVED ∨ s = ApprovalStatus.REJECTED) →
        r.status ≠ ApprovalStatus.PENDING →
        Apps.perform_update r u s n = Except.error Apps.ViewError.permissionDenied) ∧
      (∀ r2, Apps.perform_update r u s n = Except.ok r2 →
        r.status = ApprovalStatus.PENDING ∧
        (r2.status = ApprovalStatus.APPROVED ∨ r2.status = ApprovalStatus.REJECTED)) ∧
      (∀ r2, Apps.perform_destroy r u = Except.ok r2 →
        r.status = ApprovalStatus.PENDING ∧ r2.status = ApprovalStatus.CANCELLED) ∧
      (∀ r2, Apps.perform_update r u s n = Except.ok r2 →
        ∀ (u2 : User) (s2 : ApprovalStatus) (n2 : Option String),
          (∀ x, Apps.perform_update r2 u2 s2 n2 ≠ Except.ok x) ∧
          (∀ x, Apps.perform_destroy r2 u2 ≠ Except.ok x)) ∧
      (∀ r2, Apps.perform_destroy r u = Except.ok r2 →
        ∀ (u2 : User) (s2 : ApprovalStatus) (n2 : Option String),
          (∀ x, Apps.perform_update r2 u2 s2 n2 ≠ Except.ok x) ∧
          (∀ x, Apps.perform_destroy r2 u2 ≠ Except.ok x)) := by
  intro r u s n
  have hupd := fun r2 => perform_update_ok_inv r u s n r2
  have hdes := fun r2 => perform_destroy_ok_inv r u r2
  have herr : r.status ≠ ApprovalStatus.PENDING →
      (Apps.perform_update r u s n = Except.error Apps.ViewError.validationError ∨
       Apps.perform_update r u s n = Except.error Apps.ViewError.permissionDenied) ∧
      Apps.perform_destroy r u = Except.error Apps.ViewError.permissionDenied := by
    intro hne
    constructor
    · unfold Apps.perform_update
      by_cases h1 : (s == ApprovalStatus.APPROVED || s == ApprovalStatus.REJECTED) = true
      · by_cases h2 : Apps.ApprovalRequest.can_be_reviewed_by r u = true
        · right
          rw [if_neg (by simp [h1]), if_neg (by simp [h2]),
            if_pos (by simp [bne_iff_ne, hne])]
        · right
          rw [if_neg (by simp [h1]), if_pos (by simp [h2])]
      · left
        rw [if_pos (by simp [h1])]
    · unfold Apps.perform_destroy
      by_cases h1 : (r.requested_by == u.id || u.role == UserRole.ADMIN) = true
      · rw [if_neg (by simp [h1]), if_pos (by simp [bne_iff_ne, hne])]
      · rw [if_pos (by simp [h1])]
  refine ⟨herr, ?_, hupd, hdes, ?_, ?_⟩
  · intro hrev hs hne
    unfold Apps.perform_update
    rw [if_neg (by rcases hs with rfl | rfl <;> simp), if_neg (by simp [hrev]),
      if_pos (by simp [bne_iff_ne, hne])]
  · intro r2 hok u2 s2 n2
    obtain ⟨-, hr2⟩ := hupd r2 hok
    have hne2 : r2.status ≠ ApprovalStatus.PENDING := by
      rcases hr2 with h | h <;> simp [h]
    constructor
    · intro x hx
      exact hne2 (perform_update_ok_inv r2 u2 s2 n2 x hx).1
    · intro x hx
      exact hne2 (perform_destroy_ok_inv r2 u2 x hx).1
  · intro r2 hok u2 s2 n2
    obtain ⟨-, hr2⟩ := hdes r2 hok
    have hne2 : r2.status ≠ ApprovalStatus.PENDING := by simp [hr2]
    constructor
    · intro x hx
      exact hne2 (perform_update_ok_inv r2 u2 s2 n2 x hx).1
    · intro x hx
      exact hne2 (perform_destroy_ok_inv r2 u2 x hx).1

/-- C8 witness: a concrete APPROVED request is refused by both
operations, and concrete successful review/cancel operations start from
PENDING and land in APPROVED/CANCELLED. -/
theorem C8_terminal_witness :
    ({ reqPending with status := ApprovalStatus.APPROVED } :
        Apps.ApprovalRequest).status ≠ ApprovalStatus.PENDING ∧
    Apps.perform_update { reqPending with status := ApprovalStatus.APPROVED }
        uAdmin ApprovalStatus.APPROVED none =
      Except.error Apps.ViewError.permissionDenied ∧
    Apps.perform_destroy { reqPending with status := ApprovalStatus.APPROVED }
        uAdmin = Except.error Apps.ViewError.permissionDenied ∧
    (reqPending.status = ApprovalStatus.PENDING ∧
      ((Apps.ApprovalRequest.approve reqPending uAdmin none).status =
          ApprovalStatus.APPROVED ∨
       (Apps.ApprovalRequest.approve reqPending uAdmin none).status =
          ApprovalStatus.REJECTED)) ∧
    (reqPending.status = ApprovalStatus.PENDING ∧
      (Apps.ApprovalRequest.cancel reqPending uAdmin).status =
        ApprovalStatus.CANCELLED) := by
  refine ⟨by decide, ?_, ?_, ?_, ?_⟩
  · exact (C8_non_pending_requests_are_terminal
      { reqPending with status := ApprovalStatus.APPROVED } uAdmin
      ApprovalStatus.APPROVED none).2.1 rfl (Or.inl rfl) (by decide)
  · exact ((C8_non_pending_requests_are_terminal
      { reqPending with status := ApprovalStatus.APPROVED } uAdmin
      ApprovalStatus.APPROVED none).1 (by decide)).2
  · exact (C8_non_pending_requests_are_terminal reqPending uAdmin
      ApprovalStatus.APPROVED none).2.2.1 _ rfl
  · exact (C8_non_pending_requests_are_terminal reqPending uAdmin
      ApprovalStatus.APPROVED none).2.2.2.1 _ rfl

/-- C9: a user outside the ADMIN/PRESIDENT/BOARD_MEMBER view-all roles
receives from the document list/detail queryset only documents that are
public or their own; the result is the same filter `core.utils` uses,
and it does not depend on documents that are neither public nor theirs. -/
theorem C9_low_roles_see_only_public_or_own :
    ∀ (u : User) (docs : List Document),
      (u.can_view_all_documents = false ↔
        (u.role ≠ UserRole.ADMIN ∧ u.role ≠ UserRole.PRESIDENT ∧
         u.role ≠ UserRole.BOARD_MEMBER)) ∧
      (u.can_view_all_documents = false →
        (∀ d ∈ Apps.DocumentListView.get_queryset u docs,
            d.is_public = true ∨ d.author = u.id) ∧
        Apps.DocumentListView.get_queryset u docs =
          get_user_accessible_documents u docs ∧
        (∀ docs2 : List Document,
            docs.filter (fun d => d.is_public || d.author == u.id) =
              docs2.filter (fun d => d.is_public || d.author == u.id) →
            Apps.DocumentListView.get_queryset u docs =
              Apps.DocumentListView.get_queryset u docs2)) := by
  intro u docs
  constructor
  · cases h : u.role <;> simp [User.can_view_all_documents, h]
  · intro hv
    refine ⟨?_, ?_, ?_⟩
    · intro d hd
      unfold Apps.DocumentListView.get_queryset at hd
      rw [if_neg (by simp [hv])] at hd
      have hmem := List.mem_filter.mp hd
      rcases Bool.or_eq_true _ _ |>.mp hmem.2 with h | h
      · exact Or.inl h
      · exact Or.inr (beq_iff_eq.mp h)
    · unfold Apps.DocumentListView.get_queryset get_user_accessible_documents
      rw [if_neg (by simp [hv])]
    · intro docs2 hfil
      unfold Apps.DocumentListView.get_queryset
      rw [if_neg (by simp [hv]), if_neg (by simp [hv])]
      exact hfil

/-- C9 witness: a VOLUNTEER stranger sees exactly the public document,
and removing the private document of another author changes nothing. -/
theorem C9_queryset_witness :
    uOther.can_view_all_documents = false ∧
    Apps.DocumentListView.get_queryset uOther
        [docPlain, { docPlain with id := 2, is_public := true }] =
      [{ docPlain with id := 2, is_public := true }] ∧
    (({ docPlain with id := 2, is_public := true } : Document).is_public = true ∨
      ({ docPlain with id := 2, is_public := true } : Document).author = uOther.id) ∧
    Apps.DocumentListView.get_queryset uOther
        [docPlain, { docPlain with id := 2, is_public := true }] =
      Apps.DocumentListView.get_queryset uOther
        [{ docPlain with id := 2, is_public := true }] := by
  refine ⟨rfl, by decide, ?_, ?_⟩
  · exact ((C9_low_roles_see_only_public_or_own uOther
      [docPlain, { docPlain with id := 2, is_public := true }]).2 rfl).1
      { docPlain with id := 2, is_public := true } (by decide)
  · exact ((C9_low_roles_see_only_public_or_own uOther
      [docPlain, { docPlain with id := 2, is_public := true }]).2 rfl).2.2
      [{ docPlain with id := 2, is_public := true }] (by decide)

/-- C10: the unique-slug generation never returns an existing slug,
returns the base slug when it is unused and otherwise the base with the
smallest positive suffix index that is unused (every smaller positive
suffix being taken); the search stops within `existing.length + 1`
candidates, so it terminates on any finite document table. -/
theorem C10_generate_unique_slug_correct :
    ∀ (base : String) (existing : List String),
      generate_unique_slug base existing ∉ existing ∧
      (base ∉ existing → generate_unique_slug base existing = base) ∧
      (base ∈ existing →
        ∃ n : Nat, 1 ≤ n ∧
          generate_unique_slug base existing = slugCandidate base n ∧
          slugCandidate base n ∉ existing ∧
          ∀ m : Nat, 1 ≤ m → m < n → slugCandidate base m ∈ existing) ∧
      Nat.find (slug_exists_unused base existing) ≤ existing.length + 1 := by
  intro base existing
  have hspec := Nat.find_spec (slug_exists_unused base existing)
  refine ⟨hspec, ?_, ?_, ?_⟩
  · intro hb
    have h0 : Nat.find (slug_exists_unused base existing) = 0 :=
      (Nat.find_eq_zero _).mpr hb
    unfold generate_unique_slug
    rw [h0]
    rfl
  · intro hb
    refine ⟨Nat.find (slug_exists_unused base existing), ?_, rfl, hspec, ?_⟩
    · by_contra hlt
      have h0 : Nat.find (slug_exists_unused base existing) = 0 := by omega
      rw [h0] at hspec
      exact hspec hb
    · intro m hm1 hmlt
      have := Nat.find_min (slug_exists_unused base existing) hmlt
      simpa using this
  · by_contra hgt
    push_neg at hgt
    have hall : ∀ n ≤ existing.length + 1, slugCandidate base n ∈ existing := by
      intro n hn
      by_contra hnot
      have := Nat.find_min' (slug_exists_unused base existing) hnot
      omega
    have hnodup :
        ((List.range (existing.length + 2)).map (slugCandidate base)).Nodup :=
      (List.nodup_range _).map (slugCandidate_injective base)
    have hsub :
        ((List.range (existing.length + 2)).map (slugCandidate base)) ⊆ existing := by
      intro s hs
      simp only [List.mem_map, List.mem_range] at hs
      obtain ⟨n, hn, rfl⟩ := hs
      exact hall n (by omega)
    have h1 : ((List.range (existing.length + 2)).map
        (slugCandidate base)).toFinset.card = existing.length + 2 := by
      rw [List.toFinset_card_of_nodup hnodup]
      simp
    have h2 : ((List.range (existing.length + 2)).map
        (slugCandidate base)).toFinset ⊆ existing.toFinset := by
      intro x hx
      simp only [List.mem_toFinset] at hx ⊢
      exact hsub hx
    have h3 := Finset.card_le_card h2
    have h4 := existing.toFinset_card_le
    omega

/-- C10 witness: concrete slug generation — an unused base is returned
unchanged, a used base gets the first free suffix, and the result never
collides. -/
theorem C10_slug_witness :
    ("b" ∉ (["a"] : List String)) ∧
    generate_unique_slug "b" ["a"] = "b" ∧
    ("a" ∈ (["a"] : List String)) ∧
    generate_unique_slug "a" ["a"] ∉ (["a"] : List String) ∧
    generate_unique_slug "a" ["a"] = "a-1" := by
  have hcand : slugCandidate "a" 1 = "a-1" := by
    rw [slugCandidate, natChars]
    rfl
  have hfind : Nat.find (slug_exists_unused "a" ["a"]) = 1 := by
    rw [Nat.find_eq_iff]
    constructor
    · rw [hcand]
      decide
    · intro k hk
      interval_cases k
      simp [slugCandidate]
  refine ⟨by decide, ?_, by decide, ?_, ?_⟩
  · exact (C10_generate_unique_slug_correct "b" ["a"]).2.1 (by decide)
  · exact (C10_generate_unique_slug_correct "a" ["a"]).1
  · unfold generate_unique_slug
    rw [hfind, hcand]

/-- C5 witness: the role-check characterization applied at concrete
inputs, the hierarchy side evaluated on a VOLUNTEER facing a
BOARD_MEMBER-required category. -/
theorem C5_role_checks_witness :
    Apps.Document.can_be_approved_by docPlain uAdmin =
      claimedApprovalCheck uAdmin docPlain.category.required_approval_role ∧
    DS.ApprovalRequest.can_user_review dsReqPending uVol =
      ((dsReqPending.status == ApprovalStatus.PENDING) &&
        decide (DS.roleRank dsReqPending.document.category.required_approval_role ≤
          DS.roleRank uVol.role)) ∧
    DS.ApprovalRequest.can_user_review dsReqPending uVol = false := by
  refine ⟨C5_role_checks_characterized.1 docPlain uAdmin,
    C5_role_checks_characterized.2.2 dsReqPending uVol, rfl⟩

/-- C6 witness: the boolean-diff characterization at concrete versions. -/
theorem C6_diff_boolean_witness :
    ((Apps.document_diff_payload verX verY).diff = true ↔
      verX.content_markdown ≠ verY.content_markdown) ∧
    (Apps.document_diff_payload verX verY).version1_content = "x" := by
  exact ⟨(C6_diff_is_boolean_inequality verX verY).1,
    (C6_diff_is_boolean_inequality verX verY).2.1⟩
